import Mathlib

/-
Verification of the conversion-orchestrator core of the video-format-converter
application (src/convertVideo.py) against its design specification.

The Python source is shallowly embedded: pure helpers become Lean functions,
float arithmetic is modelled exactly over the rationals, the transcoding
engine and filesystem are modelled by an explicit behaviour record plus an
event trace, and the two timer callbacks become state-transition functions
returning the new state, the value published to the event sink (if any), and
whether the callback reschedules itself.
-/

namespace ConvertVideo

/-! ## DimensionNormalizer (src/convertVideo.py, _normalize_dimension) -/

/-- Python's round(): nearest integer, ties to the even integer
(banker's rounding), modelled exactly on the rationals. -/
def pyRound (q : ℚ) : ℤ :=
  if q - ⌊q⌋ < 1/2 then ⌊q⌋
  else if 1/2 < q - ⌊q⌋ then ⌊q⌋ + 1
  else if ⌊q⌋ % 2 = 0 then ⌊q⌋ else ⌊q⌋ + 1

/-- Embeds _normalize_dimension: round to nearest, decrement by 1 if odd,
clamp below at 2. -/
def _normalize_dimension (value : ℚ) : ℤ :=
  max 2 (if pyRound value % 2 ≠ 0 then pyRound value - 1 else pyRound value)

/-! ## Per-job progress ranges (convert_videos, lines 841-842) -/

/-- current_file_start_progress = (index - 1) / total, on 1-based index. -/
def current_file_start_progress (index total : ℕ) : ℚ :=
  ((index : ℚ) - 1) / (total : ℚ)

/-- current_file_end_progress = index / total, on 1-based index. -/
def current_file_end_progress (index total : ℕ) : ℚ :=
  (index : ℚ) / (total : ℚ)

/-! ## ProgressEstimator (start/stop/animate_simulated_progress) -/

/-- State touched by the simulated-progress timer loop: the running flag,
the current file's progress range, and simulated_progress itself. -/
structure SimState where
  running : Bool
  startP : ℚ
  endP : ℚ
  value : ℚ
deriving Repr, DecidableEq

/-- One firing of animate_simulated_progress. Returns the new state, the
value published via progress_bar.set (if any), and whether the callback
rescheduled itself via root.after(150, ...). A fire with the running flag
cleared returns immediately. -/
def animate_simulated_progress (s : SimState) : SimState × Option ℚ × Bool :=
  if s.running = false then (s, none, false)
  else
    let max_progress := s.startP + (s.endP - s.startP) * (9/10)
    if s.value < max_progress then
      let increment := (s.endP - s.startP) * (2/100)
      let v := min (s.value + increment) max_progress
      ({ s with value := v }, some v, s.running)
    else (s, none, s.running)

/-- Runs up to n firings of the simulated-progress callback, collecting every
published value, and stopping when the callback does not reschedule. -/
def runTicks : ℕ → SimState → SimState × List ℚ
  | 0, s => (s, [])
  | n + 1, s =>
    let r := animate_simulated_progress s
    if r.2.2 then
      let rest := runTicks n r.1
      (rest.1, r.2.1.toList ++ rest.2)
    else (r.1, r.2.1.toList)

/-! ## StatusMessageRotator (get_random_message / show_funny_message)

The message type is kept generic (the source pool is a list of strings);
random.choice is modelled by an arbitrary choice index k, read modulo the
size of the candidate list, so every theorem holds for every choice. -/

/-- Embeds get_random_message: filter the pool against used_messages, reset
the history if that empties the candidates, pick a candidate, append it to
the history and evict the oldest entry once the history exceeds 10.
Returns the chosen message and the updated used_messages list. -/
def get_random_message {α : Type} [DecidableEq α] (pool used : List α)
    (k : ℕ) (default : α) : α × List α :=
  let available := pool.filter (fun m => decide (m ∉ used))
  let usedA := if available.isEmpty then ([] : List α) else used
  let availableA := if available.isEmpty then pool else available
  let message := availableA.getD (k % availableA.length) default
  let used1 := usedA ++ [message]
  let used2 := if used1.length > 10 then used1.tail else used1
  (message, used2)

/-- Repeated calls to get_random_message, one per choice index, as performed
by successive firings of the message timer; returns the emitted sequence. -/
def rotate_run {α : Type} [DecidableEq α] (pool : List α) (default : α) :
    List ℕ → List α → List α
  | [], _ => []
  | k :: ks, used =>
    let r := get_random_message pool used k default
    r.1 :: rotate_run pool default ks r.2

/-- State touched by the status-message timer loop. -/
structure MsgState (α : Type) where
  running : Bool
  used : List α
deriving Repr, DecidableEq

/-- One firing of show_funny_message: if the running flag is cleared, return
immediately; otherwise select a message, emit it, and reschedule. Returns the
new state, the emitted message (if any), and the reschedule decision. -/
def show_funny_message {α : Type} [DecidableEq α] (pool : List α)
    (default : α) (s : MsgState α) (k : ℕ) : MsgState α × Option α × Bool :=
  if s.running = false then (s, none, false)
  else
    let r := get_random_message pool s.used k default
    ({ s with used := r.2 }, some r.1, s.running)

/-! ## Output-path resolution (convert_single_video, lines 974-984)

pathlib.Path.parent and .stem are modelled for ordinary POSIX-style path
strings by splitting on the path separator and on the extension dot. The
splitting and lowercasing are written by structural recursion over the
character list of the string. -/

/-- Splits a character list on a separator character, keeping empty groups,
with the semantics of str.split(sep). -/
def splitOnChar (sep : Char) : List Char → List (List Char)
  | [] => [[]]
  | c :: cs =>
    match splitOnChar sep cs with
    | [] => [[]]
    | g :: gs => if c = sep then [] :: g :: gs else (c :: g) :: gs

/-- str.lower() over the characters of a string. -/
def lowerString (s : String) : String := String.mk (s.data.map Char.toLower)

/-- Components of a path string, split on the separator. -/
def splitPath (p : String) : List (List Char) := splitOnChar '/' p.data

/-- Path.parent for an ordinary path: all components but the last. -/
def parentPath (p : String) : String :=
  String.mk (List.intercalate ['/'] (splitPath p).dropLast)

/-- Final component of a path string. -/
def fileName (p : String) : String := String.mk ((splitPath p).getLastD [])

/-- Path.stem of a file name: the name with its last dot-suffix removed when
it has one. -/
def stemOf (name : String) : String :=
  let parts := splitOnChar '.' name.data
  if parts.length ≤ 1 then name
  else String.mk (List.intercalate ['.'] parts.dropLast)

/-- output_dir: the configured output folder when set, otherwise the source
file's own directory. -/
def resolveOutputDir (output_folder : Option String) (input_path : String) :
    String :=
  match output_folder with
  | some f => f
  | none => parentPath input_path

/-- output_path = output_dir / (input stem + "." + lowercased format). -/
def resolveOutputPath (output_folder : Option String)
    (input_path target_format : String) : String :=
  resolveOutputDir output_folder input_path ++ "/" ++
    (stemOf (fileName input_path) ++ "." ++ lowerString target_format)

/-! ## Transcoding engine model and convert_single_video -/

/-- Which engine/filesystem steps of one job succeed: opening the source
(VideoFileClip), the resize calls, and the final write. -/
structure EngineBehavior where
  openOk : Bool
  resizeOk : Bool
  writeOk : Bool
deriving Repr, DecidableEq

/-- Observable effects of convert_single_video, in order of occurrence. -/
inductive Event
  | mkdir (dir : String)
  | openClip
  | resize (w h : ℤ)
  | writeGif (path : String) (fps : ℤ)
  | writeVideo (path codec audio_codec : String)
  | closeClip
deriving Repr, DecidableEq

/-- GIF options read from the UI variables. -/
structure GifOptions where
  fps : ℤ
  scale : ℚ
  maxWidth : ℤ
  fullWidth : Bool
deriving Repr, DecidableEq

/-- The codec_map dictionary of the non-GIF branch. -/
def codec_map : List (String × String) :=
  [("MP4", "libx264"), ("MOV", "libx264"), ("MKV", "libx264"),
   ("WEBM", "libvpx"), ("AVI", "mpeg4")]

/-- codec_map.get(target_format, default libx264). -/
def videoCodec (target_format : String) : String :=
  (codec_map.lookup target_format).getD "libx264"

/-- audio_codec = aac for MP4/MOV/MKV, libvorbis otherwise. -/
def audioCodec (target_format : String) : String :=
  if target_format = "MP4" ∨ target_format = "MOV" ∨ target_format = "MKV"
  then "aac" else "libvorbis"

/-- Global-scale stage of the GIF branch: when scale < 1.0, normalize both
scaled dimensions; otherwise the clip keeps its original dimensions. -/
def stage1Dims (w h : ℤ) (scale : ℚ) : ℤ × ℤ :=
  if scale < 1 then
    (_normalize_dimension ((w : ℚ) * scale),
     _normalize_dimension ((h : ℚ) * scale))
  else (w, h)

/-- Max-width cap stage of the GIF branch, applied to the current (possibly
already scaled) dimensions: when full width is off and the clip is wider
than max_width, rescale by max_width / current width. -/
def stage2Dims (w h : ℤ) (maxWidth : ℤ) (fullWidth : Bool) : ℤ × ℤ :=
  if fullWidth = false ∧ maxWidth < w then
    (_normalize_dimension (maxWidth : ℚ),
     _normalize_dimension ((h : ℚ) * ((maxWidth : ℚ) / (w : ℚ))))
  else (w, h)

/-- Body of the try block after the clip is opened, for the GIF branch:
the two resize decisions followed by write_gif. Each attempted resize emits
an event; a failing resize or write raises out of the body. -/
def gifBody (eng : EngineBehavior) (clipW clipH : ℤ) (opts : GifOptions)
    (output_path : String) : List Event × Except String String :=
  let d1 := stage1Dims clipW clipH opts.scale
  let evs1 : List Event :=
    if opts.scale < 1 then [Event.resize d1.1 d1.2] else []
  if opts.scale < 1 ∧ eng.resizeOk = false then
    (evs1, Except.error "ResizeError")
  else
    let d2 := stage2Dims d1.1 d1.2 opts.maxWidth opts.fullWidth
    let cap := opts.fullWidth = false ∧ opts.maxWidth < d1.1
    let evs2 : List Event := if cap then [Event.resize d2.1 d2.2] else []
    if cap ∧ eng.resizeOk = false then
      (evs1 ++ evs2, Except.error "ResizeError")
    else
      (evs1 ++ evs2 ++ [Event.writeGif output_path opts.fps],
       if eng.writeOk then Except.ok output_path
       else Except.error "EncodeError")

/-- Body of the try block after the clip is opened, for the non-GIF branch:
codec selection followed by write_videofile. -/
def videoBody (eng : EngineBehavior) (target_format output_path : String) :
    List Event × Except String String :=
  ([Event.writeVideo output_path (videoCodec target_format)
      (audioCodec target_format)],
   if eng.writeOk then Except.ok output_path
   else Except.error "EncodeError")

/-- Embeds convert_single_video as an event trace plus an outcome: resolve
the output path, create the output directory, open the clip (an open failure
leaves no handle to release), run the format-specific body, and close the
clip in the finally block on every path on which it was acquired. -/
def convert_single_video (eng : EngineBehavior) (clipW clipH : ℤ)
    (opts : GifOptions) (output_folder : Option String)
    (input_path target_format : String) : List Event × Except String String :=
  let output_dir := resolveOutputDir output_folder input_path
  let output_path := resolveOutputPath output_folder input_path target_format
  if eng.openOk = false then
    ([Event.mkdir output_dir], Except.error "UnreadableSource")
  else
    let body :=
      if target_format = "GIF" then gifBody eng clipW clipH opts output_path
      else videoBody eng target_format output_path
    ([Event.mkdir output_dir, Event.openClip] ++ body.1 ++ [Event.closeClip],
     body.2)

/-! ## ConversionOrchestrator (convert_videos, lines 816-895) -/

/-- One job of a batch: the source path and the behaviour of the engine and
filesystem steps on it. -/
structure JobSpec where
  path : String
  clipW : ℤ
  clipH : ℤ
  eng : EngineBehavior
deriving Repr, DecidableEq

/-- The per-job loop of convert_videos: for the job at 1-based index, run
convert_single_video inside the try block; on success count it and publish
current_file_end_progress, on an exception log and publish index / total,
then continue with the next job either way. Returns the success count, the
1-based indices attempted in order, and the orchestrator's progress-bar
publishes in order. -/
def processJobs (opts : GifOptions) (output_folder : Option String)
    (target_format : String) (total : ℕ) :
    List JobSpec → ℕ → ℕ × List ℕ × List ℚ
  | [], _ => (0, [], [])
  | job :: rest, index =>
    let r := convert_single_video job.eng job.clipW job.clipH opts
      output_folder job.path target_format
    let next := processJobs opts output_folder target_format total rest
      (index + 1)
    match r.2 with
    | Except.ok _ =>
      (next.1 + 1, index :: next.2.1,
       current_file_end_progress index total :: next.2.2)
    | Except.error _ =>
      (next.1, index :: next.2.1,
       ((index : ℚ) / (total : ℚ)) :: next.2.2)

/-- Final summary published by convert_videos. -/
structure RunSummary where
  succeeded : ℕ
  total : ℕ
deriving Repr, DecidableEq

/-- Embeds convert_videos: walk every selected file from index 1, then report
success_count / total. Also returns the attempted indices and the
orchestrator-level progress publishes. -/
def convert_videos (opts : GifOptions) (output_folder : Option String)
    (target_format : String) (jobs : List JobSpec) :
    RunSummary × List ℕ × List ℚ :=
  let total := jobs.length
  let r := processJobs opts output_folder target_format total jobs 1
  (⟨r.1, total⟩, r.2.1, r.2.2)

/-- Whether convert_single_video completes without an exception for a job:
the open, every needed resize, and the write must all succeed. -/
def jobSucceeds (opts : GifOptions) (target_format : String)
    (j : JobSpec) : Bool :=
  j.eng.openOk &&
    (if target_format = "GIF" then
      (if opts.scale < 1 ∨
          (opts.fullWidth = false ∧
            opts.maxWidth < (stage1Dims j.clipW j.clipH opts.scale).1)
       then j.eng.resizeOk else true) && j.eng.writeOk
     else j.eng.writeOk)

/-- The THINKING_MESSAGES pool of the source (100 distinct strings). -/
def THINKING_MESSAGES : List String := [
  "🎬 Wrangling pixels into submission...",
  "🔧 Teaching bits new dance moves...",
  "🎨 Convincing frames to get along...",
  "⚡ Negotiating with the codec union...",
  "🎭 Rehearsing the video\x27s new format...",
  "🔮 Consulting the FFmpeg oracle...",
  "🎪 Herding cats... I mean, frames...",
  "🧙 Casting video transformation spell...",
  "🎵 Humming while encoding...",
  "🚀 Launching frames into new dimension...",
  "🎯 Aligning pixels with cosmic precision...",
  "🌀 Spinning up the flux capacitor...",
  "🎸 Teaching audio to play nice...",
  "🔬 Analyzing frame DNA...",
  "🎁 Gift-wrapping your video...",
  "☕ Brewing a fresh batch of frames...",
  "🎲 Rolling for codec compatibility...",
  "🧪 Mixing video potions...",
  "📐 Measuring twice, encoding once...",
  "🎻 Orchestrating the bit symphony...",
  "🌈 Adding a sprinkle of magic...",
  "🔥 Turning up the encoding heat...",
  "🧊 Keeping things cool under pressure...",
  "🎯 Zeroing in on perfection...",
  "🛸 Beaming frames to their new home...",
  "🤖 Asking AI nicely to help...",
  "🎩 Pulling codecs out of a hat...",
  "🧲 Magnetically aligning bits...",
  "🎪 Juggling keyframes...",
  "🌊 Riding the bitrate wave...",
  "🔭 Searching for the perfect frame...",
  "🎯 Playing darts with pixels...",
  "🧩 Solving the video puzzle...",
  "🎨 Bob Ross-ing these frames...",
  "🏋️ Heavy lifting in progress...",
  "🎹 Composing a visual symphony...",
  "🧬 Splicing video genes...",
  "🌪️ Tornado of transformation...",
  "🎡 Taking frames for a spin...",
  "🔐 Unlocking video potential...",
  "🎪 Teaching pixels circus tricks...",
  "🧠 Big brain encoding time...",
  "🎸 Shredding through frames...",
  "🌟 Sprinkling some stardust...",
  "🎭 Frames auditioning for new roles...",
  "🧁 Baking video goodness...",
  "🎯 Pixel perfect in progress...",
  "🚂 All aboard the encode train...",
  "🎨 Finger painting with data...",
  "🔧 Tightening the loose bits...",
  "🎵 Finding the right rhythm...",
  "🌙 Working the night shift...",
  "🎪 Video acrobatics underway...",
  "🧪 Experimental encoding phase...",
  "🎭 Drama-free conversion mode...",
  "🚀 Houston, we have liftoff...",
  "🎬 Lights, camera, encode!",
  "🧙 Abracadabra, new format!",
  "🎸 Rock and roll encoding...",
  "🌈 Chasing the perfect rainbow...",
  "🎯 Bullseye optimization...",
  "☕ Coffee break for the CPU...",
  "🎪 Frame gymnastics routine...",
  "🔮 Reading the codec tea leaves...",
  "🧊 Keeping the bits frosty...",
  "🎹 Tickling the ivories of data...",
  "🌊 Surfing the data stream...",
  "🎨 Painting by numbers (binary)...",
  "🧬 DNA test for your video...",
  "🎭 Standing ovation incoming...",
  "🔧 Fine-tuning the masterpiece...",
  "🎵 Dropping the bass (and treble)...",
  "🚂 Choo choo! Encode express!",
  "🎪 Taming wild pixels...",
  "🧠 Neurons firing on all cylinders...",
  "🌟 Making movie magic...",
  "🎬 Director\x27s cut in progress...",
  "🎸 This one goes to eleven...",
  "🧁 The secret ingredient is love...",
  "🔮 The spirits say... almost done...",
  "🎯 Sniper-level precision...",
  "🌪️ Controlled chaos mode...",
  "🎹 Mozart would be proud...",
  "🧪 Science is happening...",
  "🎭 Oscar-worthy conversion...",
  "🚀 To infinity and beyond!",
  "🎨 Michelangelo of encoding...",
  "☕ Fueled by caffeine and hope...",
  "🌈 Taste the rainbow of bits...",
  "🔧 Wrench in hand, ready to go...",
  "🎵 Symphony of compression...",
  "🧙 Gandalf approved encoding...",
  "🎪 Greatest show on earth...",
  "🌊 Making waves in video land...",
  "🎯 Threading the needle...",
  "🧊 Ice cold execution...",
  "🎬 And... action!",
  "🔮 Fortune favors the encoded...",
  "🎸 Encoding solo in progress...",
  "🧁 Fresh out of the oven soon..."
]

/-! ## Theorems -/

/-- C5: for every finite input value, _normalize_dimension returns an even
integer that is at least 2, with no error condition: it is a total function,
including on inputs at most 0. -/
theorem normalize_dimension_even_and_min (q : ℚ) :
    _normalize_dimension q % 2 = 0 ∧ 2 ≤ _normalize_dimension q := by
  unfold _normalize_dimension
  generalize pyRound q = e
  split <;> constructor <;> omega

/-- C5 witness at x = -7/2: the normalized dimension is even and at least 2
(here it is the clamp value 2 itself). -/
theorem normalize_dimension_even_and_min_witness :
    _normalize_dimension (-7/2) % 2 = 0 ∧ 2 ≤ _normalize_dimension (-7/2) :=
  normalize_dimension_even_and_min (-7/2)

/-- C2: for every batch size N at least 1 and 1-based index i between 1 and
N, the computed range is start = (i-1)/N and end = i/N; consecutive ranges
are contiguous (end of i equals start of i+1), each range is nonempty
(start strictly below end, so no overlap slack), the first start is 0 and the
last end is 1: the N ranges partition the unit interval. -/
theorem progress_ranges_partition (N i : ℕ) (hN : 1 ≤ N) (hi1 : 1 ≤ i)
    (hiN : i ≤ N) :
    current_file_start_progress i N = ((i : ℚ) - 1) / (N : ℚ) ∧
    current_file_end_progress i N = (i : ℚ) / (N : ℚ) ∧
    (i < N →
      current_file_end_progress i N = current_file_start_progress (i + 1) N) ∧
    current_file_start_progress i N < current_file_end_progress i N ∧
    current_file_start_progress 1 N = 0 ∧
    current_file_end_progress N N = 1 := by
  have hN0 : (0 : ℚ) < (N : ℚ) := by exact_mod_cast hN
  refine ⟨rfl, rfl, ?_, ?_, ?_, ?_⟩
  · intro _
    unfold current_file_start_progress current_file_end_progress
    push_cast
    ring_nf
  · unfold current_file_start_progress current_file_end_progress
    exact div_lt_div_of_pos_right (by linarith) hN0
  · unfold current_file_start_progress
    push_cast
    simp
  · unfold current_file_end_progress
    exact div_self (ne_of_gt hN0)

/-- C2 witness for a batch of 3 jobs at index 2: the second range ends where
the third begins, at 2/3. -/
theorem progress_ranges_partition_witness :
    current_file_end_progress 2 3 = current_file_start_progress 3 3 :=
  (progress_ranges_partition 3 2 (by norm_num) (by norm_num)
    (by norm_num)).2.2.1 (by norm_num)

/-- C6: for a GIF conversion of an 801x601 clip with scale 0.5, max width
350 and full width off, the global-scale stage computes 400x300 (with
normalize(400.5) = 400 and normalize(300.5) = 300), and the cap stage, run
second on the already-scaled dimensions, computes ratio 350/400 = 7/8 and
final dimensions 350x262 (normalize(350) = 350, normalize(262.5) = 262);
the body therefore performs the two resizes in that order before writing. -/
theorem gif_two_stage_resize_example :
    stage1Dims 801 601 (1/2) = (400, 300) ∧
    _normalize_dimension ((801 : ℚ) * (1/2)) = 400 ∧
    _normalize_dimension ((601 : ℚ) * (1/2)) = 300 ∧
    ((350 : ℚ) / (400 : ℚ)) = 7/8 ∧
    stage2Dims 400 300 350 false = (350, 262) ∧
    _normalize_dimension ((350 : ℚ)) = 350 ∧
    _normalize_dimension ((300 : ℚ) * ((350 : ℚ) / (400 : ℚ))) = 262 ∧
    stage2Dims (stage1Dims 801 601 (1/2)).1 (stage1Dims 801 601 (1/2)).2
      350 false = (350, 262) ∧
    (gifBody ⟨true, true, true⟩ 801 601 ⟨15, 1/2, 350, false⟩ "/a/b/c.gif").1 =
      [Event.resize 400 300, Event.resize 350 262,
       Event.writeGif "/a/b/c.gif" 15] := by
  have h1 : stage1Dims 801 601 (1/2) = (400, 300) := by
    norm_num [stage1Dims, _normalize_dimension, pyRound]
  have h2 : stage2Dims 400 300 350 false = (350, 262) := by
    norm_num [stage2Dims, _normalize_dimension, pyRound]
  refine ⟨h1, ?_, ?_, by norm_num, h2, ?_, ?_, ?_, ?_⟩
  · norm_num [_normalize_dimension, pyRound]
  · norm_num [_normalize_dimension, pyRound]
  · norm_num [_normalize_dimension, pyRound]
  · norm_num [_normalize_dimension, pyRound]
  · rw [h1]
    exact h2
  · simp only [gifBody, h1]
    norm_num [h2]

/-- C10: an AVI job reaches the video writer with video codec mpeg4, and its
audio codec is libvorbis, the codec of the branch for formats other than
MP4/MOV/MKV; a format absent from codec_map falls back to video codec
libx264. -/
theorem avi_codec_fallback :
    videoCodec "AVI" = "mpeg4" ∧
    audioCodec "AVI" = "libvorbis" ∧
    (∀ (eng : EngineBehavior) (p : String),
      (videoBody eng "AVI" p).1 = [Event.writeVideo p "mpeg4" "libvorbis"]) ∧
    (∀ (eng : EngineBehavior) (cw ch : ℤ) (opts : GifOptions)
        (output_folder : Option String) (input_path : String),
      eng.openOk = true →
      Event.writeVideo (resolveOutputPath output_folder input_path "AVI")
          "mpeg4" "libvorbis" ∈
        (convert_single_video eng cw ch opts output_folder input_path
          "AVI").1) ∧
    (∀ tf, codec_map.lookup tf = none → videoCodec tf = "libx264") := by
  have hc : videoCodec "AVI" = "mpeg4" := rfl
  have ha : audioCodec "AVI" = "libvorbis" := rfl
  refine ⟨hc, ha, ?_, ?_, ?_⟩
  · intro eng p
    simp [videoBody, hc, ha]
  · intro eng cw ch opts output_folder input_path heng
    simp [convert_single_video, heng, videoBody, hc, ha]
  · intro tf h
    simp [videoCodec, h]

/-- C10 witness: a format with no codec_map entry falls back to libx264, and
a concrete AVI job's trace contains the mpeg4/libvorbis writer call. -/
theorem avi_codec_fallback_witness :
    videoCodec "WMV" = "libx264" ∧
    Event.writeVideo "/x/y.avi" "mpeg4" "libvorbis" ∈
      (convert_single_video ⟨true, true, false⟩ 640 480 ⟨15, 1, 700, false⟩
        (some "/x") "/in/y.mov" "AVI").1 :=
  ⟨avi_codec_fallback.2.2.2.2 "WMV" rfl,
   avi_codec_fallback.2.2.2.1 ⟨true, true, false⟩ 640 480 ⟨15, 1, 700, false⟩
     (some "/x") "/in/y.mov" rfl⟩

/-- C9: a timer callback that fires after stop() has cleared its running
flag is a no-op for both loops: the state is unchanged, nothing is
published or emitted, and the callback does not reschedule itself. -/
theorem cooperative_stop_noop :
    (∀ s : SimState, s.running = false →
      animate_simulated_progress s = (s, none, false)) ∧
    (∀ (pool : List String) (d : String) (s : MsgState String) (k : ℕ),
      s.running = false → show_funny_message pool d s k = (s, none, false)) := by
  constructor
  · intro s h
    simp [animate_simulated_progress, h]
  · intro pool d s k h
    simp [show_funny_message, h]

/-- C9 witness: concrete stopped states of both loops fire as no-ops. -/
theorem cooperative_stop_noop_witness :
    animate_simulated_progress ⟨false, 0, 1, 0⟩ = (⟨false, 0, 1, 0⟩, none, false) ∧
    show_funny_message THINKING_MESSAGES "" ⟨false, []⟩ 0 =
      (⟨false, []⟩, none, false) :=
  ⟨cooperative_stop_noop.1 ⟨false, 0, 1, 0⟩ rfl,
   cooperative_stop_noop.2 THINKING_MESSAGES "" ⟨false, []⟩ 0 rfl⟩

/-- C7: the resolved output path is the output directory joined with the
source stem plus a dot plus the lowercased target format, where the output
directory is the configured folder when set and otherwise the source's own
directory; the mkdir of that directory is the first effect of
convert_single_video, before the engine open; and source /a/b/clip.MOV with
format gif and no output folder yields /a/b/clip.gif. -/
theorem output_path_resolution :
    resolveOutputPath none "/a/b/clip.MOV" "gif" = "/a/b/clip.gif" ∧
    (∀ (folder ip tf : String),
      resolveOutputPath (some folder) ip tf =
        folder ++ "/" ++ (stemOf (fileName ip) ++ "." ++ lowerString tf)) ∧
    (∀ ip tf : String,
      resolveOutputPath none ip tf =
        parentPath ip ++ "/" ++ (stemOf (fileName ip) ++ "." ++ lowerString tf)) ∧
    (∀ (eng : EngineBehavior) (cw ch : ℤ) (opts : GifOptions)
        (output_folder : Option String) (ip tf : String),
      ∃ rest, (convert_single_video eng cw ch opts output_folder ip tf).1 =
        Event.mkdir (resolveOutputDir output_folder ip) :: rest) := by
  refine ⟨by decide, fun folder ip tf => rfl, fun ip tf => rfl, ?_⟩
  intro eng cw ch opts output_folder ip tf
  cases heng : eng.openOk with
  | false => exact ⟨[], by simp [convert_single_video, heng]⟩
  | true =>
    refine ⟨Event.openClip ::
      ((if tf = "GIF" then
          gifBody eng cw ch opts (resolveOutputPath output_folder ip tf)
        else videoBody eng tf
          (resolveOutputPath output_folder ip tf)).1 ++ [Event.closeClip]),
      ?_⟩
    simp [convert_single_video, heng]

/-- The GIF-branch body never closes the clip itself. -/
theorem closeClip_not_mem_gifBody (eng : EngineBehavior) (cw ch : ℤ)
    (opts : GifOptions) (p : String) :
    Event.closeClip ∉ (gifBody eng cw ch opts p).1 := by
  unfold gifBody
  split_ifs <;> simp <;> split_ifs <;> simp

/-- The video-branch body never closes the clip itself. -/
theorem closeClip_not_mem_videoBody (eng : EngineBehavior) (tf p : String) :
    Event.closeClip ∉ (videoBody eng tf p).1 := by
  simp [videoBody]

/-- C8: whenever the engine open succeeds, the acquired clip is closed
exactly once on every exit path of convert_single_video — success, failed
resize, and failed write alike (the finally block); when the open itself
fails, no handle was acquired and no close happens. -/
theorem clip_closed_exactly_once (eng : EngineBehavior) (cw ch : ℤ)
    (opts : GifOptions) (output_folder : Option String) (ip tf : String) :
    ((convert_single_video eng cw ch opts output_folder ip tf).1.count
      Event.closeClip) = if eng.openOk then 1 else 0 := by
  cases heng : eng.openOk with
  | false => simp [convert_single_video, heng]
  | true =>
    by_cases htf : tf = "GIF"
    · subst htf
      have h := closeClip_not_mem_gifBody eng cw ch opts
        (resolveOutputPath output_folder ip "GIF")
      simp [convert_single_video, heng, List.count_append,
        List.count_cons, List.count_eq_zero.mpr h]
    · have h := closeClip_not_mem_videoBody eng tf
        (resolveOutputPath output_folder ip tf)
      simp [convert_single_video, heng, htf, List.count_append,
        List.count_cons, List.count_eq_zero.mpr h]

/-- Whether an Except outcome is a success. -/
def isOkB : Except String String → Bool
  | Except.ok _ => true
  | Except.error _ => false

/-- convert_single_video succeeds exactly when the open, every resize the
options require, and the write all succeed, as computed by jobSucceeds. -/
theorem convert_single_video_ok (eng : EngineBehavior) (cw ch : ℤ)
    (opts : GifOptions) (output_folder : Option String) (ip tf : String) :
    isOkB (convert_single_video eng cw ch opts output_folder ip tf).2 =
      jobSucceeds opts tf ⟨ip, cw, ch, eng⟩ := by
  cases heng : eng.openOk with
  | false => simp [convert_single_video, heng, jobSucceeds, isOkB]
  | true =>
    by_cases htf : tf = "GIF"
    · subst htf
      cases hr : eng.resizeOk <;> cases hw : eng.writeOk <;>
        by_cases hs : opts.scale < 1 <;>
        by_cases hcap : opts.fullWidth = false ∧
          opts.maxWidth < (stage1Dims cw ch opts.scale).1 <;>
        simp [convert_single_video, gifBody, jobSucceeds, isOkB, heng, hr,
          hw, hs, hcap]
    · cases hw : eng.writeOk <;>
        simp [convert_single_video, heng, htf, videoBody, jobSucceeds,
          isOkB, hw]

/-- The per-job loop attempts every job in order: the attempted 1-based
indices are exactly index, index+1, ..., regardless of failures. -/
theorem processJobs_attempted (opts : GifOptions)
    (output_folder : Option String) (tf : String) (total : ℕ)
    (jobs : List JobSpec) : ∀ idx : ℕ,
    (processJobs opts output_folder tf total jobs idx).2.1 =
      List.range' idx jobs.length := by
  induction jobs with
  | nil => intro idx; rfl
  | cons j rest ih =>
    intro idx
    cases h : (convert_single_video j.eng j.clipW j.clipH opts output_folder
        j.path tf).2 <;>
      simp [processJobs, h, ih, List.range'_succ]

/-- The success counter of the per-job loop counts exactly the jobs on which
convert_single_video succeeds. -/
theorem processJobs_succeeded (opts : GifOptions)
    (output_folder : Option String) (tf : String) (total : ℕ)
    (jobs : List JobSpec) : ∀ idx : ℕ,
    (processJobs opts output_folder tf total jobs idx).1 =
      (jobs.filter (fun j => jobSucceeds opts tf j)).length := by
  induction jobs with
  | nil => intro idx; rfl
  | cons j rest ih =>
    intro idx
    have hok := convert_single_video_ok j.eng j.clipW j.clipH opts
      output_folder j.path tf
    cases h : (convert_single_video j.eng j.clipW j.clipH opts output_folder
        j.path tf).2 with
    | ok v =>
      rw [h] at hok
      simp only [isOkB] at hok
      simp [processJobs, h, ih, List.filter_cons, ← hok]
    | error e =>
      rw [h] at hok
      simp only [isOkB] at hok
      simp [processJobs, h, ih, List.filter_cons, ← hok]

/-- A 3-job batch whose second job fails at the write step. -/
def exampleBatch : List JobSpec :=
  [⟨"/a/1.mov", 640, 480, ⟨true, true, true⟩⟩,
   ⟨"/a/2.mov", 640, 480, ⟨true, true, false⟩⟩,
   ⟨"/a/3.mov", 640, 480, ⟨true, true, true⟩⟩]

/-- C1: in every batch of N >= 1 jobs containing a failing job, the
orchestrator still attempts every job in order (the attempted indices are
exactly 1..N, so nothing after a failure is skipped and the batch is never
aborted), and the final summary reports succeeded = the number of jobs that
converted successfully and total = N; in particular the 3-job batch whose
second job fails yields succeeded = 2, total = 3. -/
theorem batch_failure_isolation (opts : GifOptions)
    (output_folder : Option String) (tf : String) (jobs : List JobSpec)
    (hN : 1 ≤ jobs.length)
    (hfail : ∃ j ∈ jobs, jobSucceeds opts tf j = false) :
    (convert_videos opts output_folder tf jobs).2.1 =
      List.range' 1 jobs.length ∧
    (convert_videos opts output_folder tf jobs).1.succeeded =
      (jobs.filter (fun j => jobSucceeds opts tf j)).length ∧
    (convert_videos opts output_folder tf jobs).1.total = jobs.length ∧
    (convert_videos opts output_folder "MP4" exampleBatch).1 =
      RunSummary.mk 2 3 := by
  refine ⟨?_, ?_, rfl, ?_⟩
  · exact processJobs_attempted opts output_folder tf jobs.length jobs 1
  · exact processJobs_succeeded opts output_folder tf jobs.length jobs 1
  · have h := processJobs_succeeded opts output_folder "MP4"
      exampleBatch.length exampleBatch 1
    have hf : (exampleBatch.filter
        (fun j => jobSucceeds opts "MP4" j)).length = 2 := by
      simp [exampleBatch, List.filter_cons, jobSucceeds]
    simp only [convert_videos]
    rw [h, hf]
    rfl

/-- C1 witness on the concrete 3-job batch with a failing second job: all
three indices are attempted in order and the summary is 2 of 3. -/
theorem batch_failure_isolation_witness :
    (convert_videos ⟨15, 1, 700, false⟩ none "MP4" exampleBatch).2.1 =
      [1, 2, 3] ∧
    (convert_videos ⟨15, 1, 700, false⟩ none "MP4" exampleBatch).1 =
      RunSummary.mk 2 3 := by
  have h := batch_failure_isolation ⟨15, 1, 700, false⟩ none "MP4"
    exampleBatch (by decide)
    ⟨⟨"/a/2.mov", 640, 480, ⟨true, true, false⟩⟩, by decide, by decide⟩
  exact ⟨h.1, h.2.2.2⟩

/-- Behaviour of any number of simulated-progress ticks from a running
state whose range is non-degenerate: the range and flag are preserved,
simulated_progress never decreases, every published value lies between the
starting value and the 90 percent ceiling, and the published sequence is
non-decreasing. -/
theorem runTicks_spec (n : ℕ) : ∀ s : SimState, s.running = true →
    s.startP ≤ s.endP →
    (runTicks n s).1.startP = s.startP ∧
    (runTicks n s).1.endP = s.endP ∧
    s.value ≤ (runTicks n s).1.value ∧
    (∀ v ∈ (runTicks n s).2,
      s.value ≤ v ∧ v ≤ s.startP + (s.endP - s.startP) * (9/10)) ∧
    List.Chain' (fun a b => a ≤ b) (runTicks n s).2 := by
  induction n with
  | zero =>
    intro s h1 h2
    exact ⟨rfl, rfl, le_refl _, by simp [runTicks], by simp [runTicks]⟩
  | succ n ih =>
    intro s h1 h2
    have hinc : 0 ≤ (s.endP - s.startP) * (2 / 100) := by
      have : (0 : ℚ) ≤ s.endP - s.startP := by linarith
      positivity
    by_cases hv : s.value < s.startP + (s.endP - s.startP) * (9/10)
    · have hstep : runTicks (n + 1) s =
          ((runTicks n (SimState.mk s.running s.startP s.endP
              (min (s.value + (s.endP - s.startP) * (2/100))
                (s.startP + (s.endP - s.startP) * (9/10))))).1,
            min (s.value + (s.endP - s.startP) * (2/100))
                (s.startP + (s.endP - s.startP) * (9/10)) ::
              (runTicks n (SimState.mk s.running s.startP s.endP
                (min (s.value + (s.endP - s.startP) * (2/100))
                  (s.startP + (s.endP - s.startP) * (9/10))))).2) := by
        simp [runTicks, animate_simulated_progress, h1, hv]
      rw [hstep]
      set v := min (s.value + (s.endP - s.startP) * (2/100))
        (s.startP + (s.endP - s.startP) * (9/10)) with hvdef
      set s1 := SimState.mk s.running s.startP s.endP v with hs1def
      have hle : s.value ≤ v := by
        rw [hvdef]
        exact le_min (by linarith) (le_of_lt hv)
      have hceil : v ≤ s.startP + (s.endP - s.startP) * (9/10) := by
        rw [hvdef]
        exact min_le_right _ _
      have H := ih s1 h1 h2
      refine ⟨H.1, H.2.1, le_trans hle H.2.2.1, ?_, ?_⟩
      · intro w hw
        rcases List.mem_cons.mp hw with hw | hw
        · exact hw ▸ ⟨hle, hceil⟩
        · exact ⟨le_trans hle (H.2.2.2.1 w hw).1, (H.2.2.2.1 w hw).2⟩
      · refine List.chain'_cons'.mpr ⟨?_, H.2.2.2.2⟩
        intro y hy
        exact (H.2.2.2.1 y (List.mem_of_mem_head? hy)).1
    · have hstep : runTicks (n + 1) s = runTicks n s := by
        simp [runTicks, animate_simulated_progress, h1, hv]
      rw [hstep]
      exact ih s h1 h2

/-- Directly after a job finishes — successfully or not — the orchestrator
publishes exactly that job's range end, index / total. -/
theorem processJobs_snap (opts : GifOptions) (output_folder : Option String)
    (tf : String) (total : ℕ) (job : JobSpec) (rest : List JobSpec)
    (index : ℕ) :
    (processJobs opts output_folder tf total (job :: rest) index).2.2.head? =
      some (current_file_end_progress index total) := by
  cases h : (convert_single_video job.eng job.clipW job.clipH opts
      output_folder job.path tf).2 <;>
    simp [processJobs, h, current_file_end_progress]

/-- C3: starting a job's simulated animation from range.start, every value
published by the ticks is at most the ceiling range.start +
0.9 * (range.end - range.start), the published values are non-decreasing and
never fall below range.start, no matter how many ticks elapse; and
immediately after the job finishes, in success and in failure alike, the
orchestrator publishes exactly range.end = index / total. -/
theorem simulated_progress_ceiling_and_snap (startP endP : ℚ)
    (h : startP ≤ endP) (n : ℕ) :
    (∀ v ∈ (runTicks n ⟨true, startP, endP, startP⟩).2,
      startP ≤ v ∧ v ≤ startP + (endP - startP) * (9/10)) ∧
    List.Chain' (fun a b => a ≤ b)
      (runTicks n ⟨true, startP, endP, startP⟩).2 ∧
    (∀ (opts : GifOptions) (output_folder : Option String) (tf : String)
        (total : ℕ) (job : JobSpec) (rest : List JobSpec) (index : ℕ),
      (processJobs opts output_folder tf total
          (job :: rest) index).2.2.head? =
        some (current_file_end_progress index total)) := by
  have H := runTicks_spec n ⟨true, startP, endP, startP⟩ rfl h
  exact ⟨H.2.2.2.1, H.2.2.2.2,
    fun opts output_folder tf total job rest index =>
      processJobs_snap opts output_folder tf total job rest index⟩

/-- C3 witness for the range [0, 1/2] after three ticks: the published
values stay within the ceiling and the first post-job publish is the range
end. -/
theorem simulated_progress_ceiling_and_snap_witness :
    (∀ v ∈ (runTicks 3 ⟨true, 0, 1/2, 0⟩).2,
      (0 : ℚ) ≤ v ∧ v ≤ 0 + (1/2 - 0) * (9/10)) ∧
    (processJobs ⟨15, 1, 700, false⟩ none "MP4" 3
        (exampleBatch.take 1) 1).2.2.head? =
      some (current_file_end_progress 1 3) := by
  have H := simulated_progress_ceiling_and_snap 0 (1/2) (by norm_num) 3
  exact ⟨H.1, H.2.2 ⟨15, 1, 700, false⟩ none "MP4" 3
    ⟨"/a/1.mov", 640, 480, ⟨true, true, true⟩⟩ [] 1⟩

/-- Taking n of an appended list is unaffected by pre-truncating the right
part to n. -/
theorem take_append_take {α : Type} (n : ℕ) (y z : List α) :
    List.take n (y ++ List.take n z) = List.take n (y ++ z) := by
  rw [List.take_append_eq_append_take, List.take_append_eq_append_take,
    List.take_take, Nat.min_eq_left (Nat.sub_le n y.length)]

/-- With at least 11 distinct pool messages and a history of at most 10,
excluding the history never empties the candidate list, so the
history-clearing branch of get_random_message is never taken. -/
theorem available_ne_nil {α : Type} [DecidableEq α] (pool used : List α)
    (hnd : pool.Nodup) (hp : 11 ≤ pool.length) (hu : used.length ≤ 10) :
    pool.filter (fun m => decide (m ∉ used)) ≠ [] := by
  intro hempty
  have hsub : pool ⊆ used := by
    intro x hx
    have h := List.filter_eq_nil_iff.mp hempty x hx
    simpa using h
  have hle := (List.subperm_of_subset hnd hsub).length_le
  omega

/-- Evaluation of get_random_message when the candidate list is nonempty:
no reset happens, the message is picked from the filtered candidates, and
the history is appended then FIFO-truncated. -/
theorem get_random_message_eq {α : Type} [DecidableEq α]
    (pool used : List α) (k : ℕ) (d : α)
    (hne : pool.filter (fun m => decide (m ∉ used)) ≠ []) :
    get_random_message pool used k d =
      ((pool.filter (fun m => decide (m ∉ used))).getD
          (k % (pool.filter (fun m => decide (m ∉ used))).length) d,
        if (used ++ [(pool.filter (fun m => decide (m ∉ used))).getD
              (k % (pool.filter (fun m => decide (m ∉ used))).length) d]).length
            > 10 then
          (used ++ [(pool.filter (fun m => decide (m ∉ used))).getD
            (k % (pool.filter (fun m => decide (m ∉ used))).length) d]).tail
        else
          used ++ [(pool.filter (fun m => decide (m ∉ used))).getD
            (k % (pool.filter (fun m => decide (m ∉ used))).length) d]) := by
  have hb : (pool.filter (fun m => decide (m ∉ used))).isEmpty = false :=
    List.isEmpty_eq_false.mpr hne
  simp only [get_random_message, hb]
  simp

/-- One call to get_random_message under the standing invariant: the chosen
message is not in the history, the new history again has at most 10 entries,
and, read most-recent-first, the new history is exactly the first 10 of the
chosen message followed by the old history. -/
theorem get_random_message_spec {α : Type} [DecidableEq α]
    (pool used : List α) (k : ℕ) (d : α)
    (hnd : pool.Nodup) (hp : 11 ≤ pool.length) (hu : used.length ≤ 10) :
    (get_random_message pool used k d).1 ∉ used ∧
    (get_random_message pool used k d).2.length ≤ 10 ∧
    (get_random_message pool used k d).2.reverse =
      List.take 10 ((get_random_message pool used k d).1 :: used.reverse) := by
  have hne := available_ne_nil pool used hnd hp hu
  rw [get_random_message_eq pool used k d hne]
  have hpos : 0 < (pool.filter (fun m => decide (m ∉ used))).length :=
    List.length_pos.mpr hne
  have hmem : (pool.filter (fun m => decide (m ∉ used))).getD
      (k % (pool.filter (fun m => decide (m ∉ used))).length) d ∈
      pool.filter (fun m => decide (m ∉ used)) := by
    rw [List.getD_eq_getElem _ _ (Nat.mod_lt _ hpos)]
    exact List.getElem_mem _
  have hmsg : (pool.filter (fun m => decide (m ∉ used))).getD
      (k % (pool.filter (fun m => decide (m ∉ used))).length) d ∉ used := by
    have h := List.mem_filter.mp hmem
    simpa using h.2
  set msg := (pool.filter (fun m => decide (m ∉ used))).getD
    (k % (pool.filter (fun m => decide (m ∉ used))).length) d with hmsgdef
  refine ⟨hmsg, ?_, ?_⟩
  · by_cases h10 : (used ++ [msg]).length > 10
    · rw [if_pos h10]
      simp [List.length_tail, List.length_append] at *
      omega
    · rw [if_neg h10]
      simp [List.length_append] at *
      omega
  · by_cases h10 : (used ++ [msg]).length > 10
    · rw [if_pos h10]
      have hlu : used.length = 10 := by
        simp [List.length_append] at h10
        omega
      cases used with
      | nil => simp at hlu
      | cons u us =>
        have hus : us.length = 9 := by simpa using hlu
        have htail : ((u :: us) ++ [msg]).tail = us ++ [msg] := by simp
        rw [htail, List.reverse_append]
        simp only [List.reverse_singleton, List.singleton_append,
          List.reverse_cons, List.take_succ_cons]
        rw [List.take_append_eq_append_take]
        have h9 : us.reverse.length = 9 := by simp [hus]
        rw [List.take_of_length_le (by omega), h9]
        simp
    · rw [if_neg h10]
      rw [List.reverse_append]
      simp only [List.reverse_singleton, List.singleton_append]
      rw [List.take_of_length_le]
      simp [List.length_append] at h10
      simp
      omega

/-- Every message emitted by the rotator avoids the 10 most recent emissions
(counting the pre-existing history for the first steps): the emission at
position j is not among the last 10 of the history followed by the first j
emissions. -/
theorem rotate_run_fresh {α : Type} [DecidableEq α] (pool : List α) (d : α)
    (hnd : pool.Nodup) (hp : 11 ≤ pool.length) :
    ∀ (ks : List ℕ) (used : List α), used.length ≤ 10 →
    ∀ j (hj : j < (rotate_run pool d ks used).length),
      (rotate_run pool d ks used).get ⟨j, hj⟩ ∉
        List.take 10 (((rotate_run pool d ks used).take j).reverse ++
          used.reverse) := by
  intro ks
  induction ks with
  | nil =>
    intro used hu j hj
    simp [rotate_run] at hj
  | cons k ks ih =>
    intro used hu j hj
    have hspec := get_random_message_spec pool used k d hnd hp hu
    cases j with
    | zero =>
      simp only [rotate_run, List.take_zero, List.reverse_nil,
        List.nil_append, List.get]
      intro hmem
      exact hspec.1 (by
        have h := List.mem_of_mem_take hmem
        simpa [List.mem_reverse] using h)
    | succ j =>
      have hj' : j <
          (rotate_run pool d ks (get_random_message pool used k d).2).length := by
        simpa [rotate_run] using hj
      have IH := ih (get_random_message pool used k d).2 hspec.2.1 j hj'
      rw [hspec.2.2] at IH
      rw [take_append_take] at IH
      simp only [rotate_run, List.take_succ_cons, List.reverse_cons,
        List.get, List.append_assoc, List.singleton_append]
      exact IH

/-- An element of a list at a position below n belongs to its n-prefix. -/
theorem get_mem_take {α : Type} (L : List α) (n p : ℕ) (hp : p < n)
    (hpL : p < L.length) : L.get ⟨p, hpL⟩ ∈ L.take n := by
  have hlen : p < (L.take n).length := by
    rw [List.length_take]
    omega
  have heq : (L.take n).get ⟨p, hlen⟩ = L.get ⟨p, hpL⟩ := by
    simp
  rw [← heq]
  exact List.get_mem _ _ _

/-- C4: starting from the cleared history at batch start, with a pool of at
least 11 distinct messages (and the code's THINKING_MESSAGES pool has 100
distinct entries), the rotator never emits the same message twice within any
window of 10 consecutive emissions, whatever random choices are made. -/
theorem rotator_no_repeat_in_window {α : Type} [DecidableEq α]
    (pool : List α) (d : α) (ks : List ℕ)
    (hnd : pool.Nodup) (hp : 11 ≤ pool.length)
    (i j : ℕ) (hij : i < j) (hwin : j - i ≤ 9)
    (hj : j < (rotate_run pool d ks []).length) :
    ((rotate_run pool d ks []).get ⟨j, hj⟩ ≠
      (rotate_run pool d ks []).get ⟨i, lt_trans hij hj⟩) ∧
    THINKING_MESSAGES.Nodup ∧ 11 ≤ THINKING_MESSAGES.length := by
  refine ⟨?_, by decide, by decide⟩
  have key := rotate_run_fresh pool d hnd hp ks [] (by simp) j hj
  simp only [List.reverse_nil, List.append_nil] at key
  intro heq
  apply key
  rw [heq]
  set out := rotate_run pool d ks [] with houtdef
  have hlentake : (out.take j).length = j := by
    rw [List.length_take]
    omega
  have hlenrev : ((out.take j).reverse).length = j := by
    simp [hlentake]
  have hpi : j - 1 - i < ((out.take j).reverse).length := by omega
  have hgeti : ((out.take j).reverse).get ⟨j - 1 - i, hpi⟩ =
      out.get ⟨i, lt_trans hij hj⟩ := by
    simp only [List.get_eq_getElem, List.getElem_reverse, List.getElem_take]
    congr 1
    rw [hlentake]
    omega
  rw [← hgeti]
  exact get_mem_take _ 10 _ (by omega) hpi

/-- C4 witness: a concrete run over a 12-message pool with concrete random
choices, where consecutive emissions at positions 0 and 1 differ. -/
theorem rotator_no_repeat_in_window_witness :
    (rotate_run (List.range 12) 0 [0, 0, 0] []).get ⟨1, by decide⟩ ≠
      (rotate_run (List.range 12) 0 [0, 0, 0] []).get ⟨0, by decide⟩ :=
  (rotator_no_repeat_in_window (List.range 12) 0 [0, 0, 0]
    (by decide) (by decide) 0 1 (by decide) (by decide) (by decide)).1

end ConvertVideo
